import Mathlib

/-!
Verification of the token-lifecycle subsystem of the JWT playground server
(`main.go`): the SQLite-backed store operations (`CreateToken`, `ListTokens`),
the HS256 signing pipeline, and the HTTP handlers (`SignUp`, `Tokens`,
`Ping`) with their middleware (`logMiddleware`).

Machine integers are modelled as `Nat`/`Int` with explicit reductions
modulo `2^64` where Go's `int64` arithmetic can wrap.  Time instants are
modelled as `Int` nanoseconds since the Unix epoch (the content of a Go
`time.Time`); `Unix()` is floor division by `10^9`.
-/

namespace JwtGo

/-- Nanoseconds per second (`time.Second`). -/
def NANOS : Int := 1000000000

/-- Go `time.Time.Unix()`: seconds since epoch, floor of nanoseconds / 1e9. -/
def unixSec (t : Int) : Int := Int.fdiv t NANOS

/-- Two's-complement wrap-around of an integer into the `int64` range,
modelling Go's defined signed-overflow behaviour. -/
def wrap64 (x : Int) : Int :=
  (x + 9223372036854775808) % 18446744073709551616 - 9223372036854775808

/-- Value of a decimal digit character, `none` for a non-digit
(`strconv` accepts only `0`-`9` in base 10). -/
def digitVal (c : Char) : Option Nat :=
  if '0' ≤ c ∧ c ≤ '9' then some (c.toNat - 48) else none

/-- Accumulate a digit string into a number; any non-digit aborts. -/
def digitsVal (cs : List Char) : Option Nat :=
  cs.foldl (fun acc c => acc.bind fun n => (digitVal c).map fun d => 10 * n + d) (some 0)

/-- Parse a nonempty all-digit string. -/
def parseDigits (cs : List Char) : Option Nat :=
  if cs.isEmpty then none else digitsVal cs

/-- Go `strconv.ParseInt(s, 10, 64)`: optional sign, decimal digits, and the
`int64` range check (out-of-range input returns an error, which the caller
treats the same as a syntax error). -/
def parseInt64 (s : String) : Option Int :=
  match s.data with
  | [] => none
  | '+' :: rest =>
    (parseDigits rest).bind fun n =>
      if n ≤ 9223372036854775807 then some (n : Int) else none
  | '-' :: rest =>
    (parseDigits rest).bind fun n =>
      if n ≤ 9223372036854775808 then some (-(n : Int)) else none
  | cs =>
    (parseDigits cs).bind fun n =>
      if n ≤ 9223372036854775807 then some (n : Int) else none

/-- Byte-wise (memcmp-style) ordering on character lists; on the UTF-8
encodings SQLite compares, codepoint order coincides with byte order.
This is the BINARY collation used by `ORDER BY updated_at` on a TEXT
column, and the key order of Go's `encoding/json` map encoding. -/
def charsLe : List Char → List Char → Bool
  | [], _ => true
  | _ :: _, [] => false
  | a :: as, b :: bs => if a < b then true else if b < a then false else charsLe as bs

/-- Byte-wise string ordering (SQLite BINARY collation / Go string `<=`). -/
def strLe (a b : String) : Bool := charsLe a.data b.data

-- ## SHA-256 (FIPS 180-4), the hash underlying `jwt.SigningMethodHS256`

/-- Rotate a 32-bit word right by `n` positions. -/
def rotr32 (n x : Nat) : Nat := ((x >>> n) ||| (x <<< (32 - n))) % 4294967296

/-- SHA-256 small sigma 0. -/
def ssig0 (x : Nat) : Nat := (rotr32 7 x) ^^^ (rotr32 18 x) ^^^ (x >>> 3)

/-- SHA-256 small sigma 1. -/
def ssig1 (x : Nat) : Nat := (rotr32 17 x) ^^^ (rotr32 19 x) ^^^ (x >>> 10)

/-- SHA-256 big sigma 0. -/
def bsig0 (x : Nat) : Nat := (rotr32 2 x) ^^^ (rotr32 13 x) ^^^ (rotr32 22 x)

/-- SHA-256 big sigma 1. -/
def bsig1 (x : Nat) : Nat := (rotr32 6 x) ^^^ (rotr32 11 x) ^^^ (rotr32 25 x)

/-- Round constants of SHA-256, written in decimal. -/
def sha256K : List Nat :=
  [1116352408, 1899447441, 3049323471, 3921009573, 961987163, 1508970993,
   2453635748, 2870763221, 3624381080, 310598401, 607225278, 1426881987,
   1925078388, 2162078206, 2614888103, 3248222580, 3835390401, 4022224774,
   264347078, 604807628, 770255983, 1249150122, 1555081692, 1996064986,
   2554220882, 2821834349, 2952996808, 3210313671, 3336571891, 3584528711,
   113926993, 338241895, 666307205, 773529912, 1294757372, 1396182291,
   1695183700, 1986661051, 2177026350, 2456956037, 2730485921, 2820302411,
   3259730800, 3345764771, 3516065817, 3600352804, 4094571909, 275423344,
   430227734, 506948616, 659060556, 883997877, 958139571, 1322822218,
   1537002063, 1747873779, 1955562222, 2024104815, 2227730452, 2361852424,
   2428436474, 2756734187, 3204031479, 3329325298]

/-- Initial hash state of SHA-256, written in decimal. -/
def sha256H0 : List Nat :=
  [1779033703, 3144134277, 1013904242, 2773480762,
   1359893119, 2600822924, 528734635, 1541459225]

/-- Big-endian 8-byte encoding of a bit length. -/
def be64 (n : Nat) : List Nat :=
  [(n >>> 56) % 256, (n >>> 48) % 256, (n >>> 40) % 256, (n >>> 32) % 256,
   (n >>> 24) % 256, (n >>> 16) % 256, (n >>> 8) % 256, n % 256]

/-- Big-endian 4-byte encoding of a 32-bit word. -/
def be32 (w : Nat) : List Nat := [(w >>> 24) % 256, (w >>> 16) % 256, (w >>> 8) % 256, w % 256]

/-- SHA-256 message padding: `0x80`, zeros to 56 mod 64, 8-byte bit length. -/
def sha256Pad (msg : List Nat) : List Nat :=
  msg ++ [0x80] ++ List.replicate ((119 - msg.length % 64) % 64) 0 ++ be64 (msg.length * 8)

/-- Split a byte list into 64-byte blocks. -/
def chunks64 (l : List Nat) : List (List Nat) :=
  (List.range ((l.length + 63) / 64)).map fun i => (l.drop (64 * i)).take 64

/-- The sixteen big-endian 32-bit words of one 64-byte block. -/
def wordsOfBlock (b : List Nat) : Array Nat :=
  ((List.range 16).map fun i =>
    ((b.getD (4 * i) 0) <<< 24) ||| ((b.getD (4 * i + 1) 0) <<< 16) |||
    ((b.getD (4 * i + 2) 0) <<< 8) ||| (b.getD (4 * i + 3) 0)).toArray

/-- Extend sixteen schedule words to sixty-four. -/
def msgSchedule (w0 : Array Nat) : Array Nat :=
  (List.range 48).foldl
    (fun w i =>
      let j := i + 16
      w.push ((ssig1 (w.getD (j - 2) 0) + w.getD (j - 7) 0 +
               ssig0 (w.getD (j - 15) 0) + w.getD (j - 16) 0) % 4294967296))
    w0

/-- One SHA-256 compression step over a 64-entry schedule. -/
def compressBlock (h : List Nat) (w : Array Nat) : List Nat :=
  let st0 := (h.getD 0 0, h.getD 1 0, h.getD 2 0, h.getD 3 0,
              h.getD 4 0, h.getD 5 0, h.getD 6 0, h.getD 7 0)
  let stF := (List.range 64).foldl
    (fun st i =>
      let (a, b, c, d, e, f, g, hh) := st
      let ch := (e &&& f) ^^^ ((e ^^^ 0xffffffff) &&& g)
      let maj := (a &&& b) ^^^ (a &&& c) ^^^ (b &&& c)
      let t1 := (hh + bsig1 e + ch + sha256K.getD i 0 + w.getD i 0) % 4294967296
      let t2 := (bsig0 a + maj) % 4294967296
      ((t1 + t2) % 4294967296, a, b, c, (d + t1) % 4294967296, e, f, g))
    st0
  let (a, b, c, d, e, f, g, hh) := stF
  [(h.getD 0 0 + a) % 4294967296, (h.getD 1 0 + b) % 4294967296,
   (h.getD 2 0 + c) % 4294967296, (h.getD 3 0 + d) % 4294967296,
   (h.getD 4 0 + e) % 4294967296, (h.getD 5 0 + f) % 4294967296,
   (h.getD 6 0 + g) % 4294967296, (h.getD 7 0 + hh) % 4294967296]

/-- SHA-256 of a byte list, as 32 bytes. -/
def sha256 (msg : List Nat) : List Nat :=
  let hs := (chunks64 (sha256Pad msg)).foldl
    (fun h block => compressBlock h (msgSchedule (wordsOfBlock block))) sha256H0
  (hs.map be32).flatten

/-- HMAC-SHA256 (`crypto/hmac` with a SHA-256 block size of 64 bytes). -/
def hmacSha256 (key msg : List Nat) : List Nat :=
  let k0 := if 64 < key.length then sha256 key else key
  let k := k0 ++ List.replicate (64 - k0.length) 0
  sha256 ((k.map fun b => b ^^^ 0x5c) ++ sha256 ((k.map fun b => b ^^^ 0x36) ++ msg))

-- ## JSON and JWT encoding (`encoding/json` + `golang-jwt/jwt/v5`)

/-- A JSON claim value as used by `jwt.MapClaims` here: the `jti` string
and the `iat`/`exp`/`nbf` int64 values. -/
inductive JsonVal where
  | str (s : String)
  | num (n : Int)
deriving DecidableEq, Repr

/-- Hexadecimal digit for JSON `\u00XX` escapes. -/
def hexDigit (n : Nat) : Char := "0123456789abcdef".data.getD n '0'

/-- Escape one character the way `encoding/json` does with default
HTML escaping (quotes, backslash, angle brackets, ampersand, controls). -/
def escChar (c : Char) : List Char :=
  if c = '"' then ['\\', '"']
  else if c = '\\' then ['\\', '\\']
  else if c = '<' then ['\\', 'u', '0', '0', '3', 'c']
  else if c = '>' then ['\\', 'u', '0', '0', '3', 'e']
  else if c = '&' then ['\\', 'u', '0', '0', '2', '6']
  else if c.toNat < 32 then
    if c = '\n' then ['\\', 'n']
    else if c = '\r' then ['\\', 'r']
    else if c = '\t' then ['\\', 't']
    else ['\\', 'u', '0', '0', hexDigit (c.toNat / 16), hexDigit (c.toNat % 16)]
  else [c]

/-- JSON string-content escaping. -/
def escapeJson (s : String) : String := String.mk (s.data.foldr (fun c acc => escChar c ++ acc) [])

/-- Encode one JSON value. -/
def jsonValEnc : JsonVal → String
  | .str s => "\"" ++ escapeJson s ++ "\""
  | .num n => toString n

/-- Key ordering used when `encoding/json` serializes a map: byte order
on the keys. -/
def keyLe (a b : String × JsonVal) : Prop := strLe a.1 b.1 = true

instance : DecidableRel keyLe := fun a b => inferInstanceAs (Decidable (_ = true))

/-- The key-sorted entry list of a claims map. -/
def sortClaims (l : List (String × JsonVal)) : List (String × JsonVal) :=
  List.insertionSort keyLe l

/-- `json.Marshal` of a `map[string]...`: entries in ascending key order. -/
def jsonMapEnc (l : List (String × JsonVal)) : String :=
  "\x7b" ++
    String.intercalate ","
      ((sortClaims l).map fun p => "\"" ++ escapeJson p.1 ++ "\":" ++ jsonValEnc p.2) ++
  "\x7d"

/-- The fixed `golang-jwt` HS256 header JSON (map keys sorted by `json.Marshal`). -/
def jwtHeaderJson : String := "\x7b\"alg\":\"HS256\",\"typ\":\"JWT\"\x7d"

/-- UTF-8 bytes of a string (all strings signed here are ASCII, where
codepoints and bytes coincide). -/
def strBytes (s : String) : List Nat := s.data.map Char.toNat

/-- The base64url alphabet (`base64.RawURLEncoding`). -/
def b64Alphabet : List Char :=
  "ABCDEFGHIJKLMNOPQRSTUVWXYZabcdefghijklmnopqrstuvwxyz0123456789-_".data

/-- Character for a 6-bit group. -/
def b64c (n : Nat) : Char := b64Alphabet.getD n 'A'

/-- Unpadded base64url encoding (`base64.RawURLEncoding.EncodeToString`). -/
def b64url : List Nat → List Char
  | b1 :: b2 :: b3 :: rest =>
    b64c (b1 >>> 2) :: b64c (((b1 % 4) <<< 4) ||| (b2 >>> 4)) ::
    b64c (((b2 % 16) <<< 2) ||| (b3 >>> 6)) :: b64c (b3 % 64) :: b64url rest
  | [b1, b2] => [b64c (b1 >>> 2), b64c (((b1 % 4) <<< 4) ||| (b2 >>> 4)), b64c ((b2 % 16) <<< 2)]
  | [b1] => [b64c (b1 >>> 2), b64c ((b1 % 4) <<< 4)]
  | [] => []

/-- `token.SignedString(secret)` for `jwt.NewWithClaims(jwt.SigningMethodHS256, claims)`:
base64url(header) `.` base64url(claims JSON) `.` base64url(HMAC-SHA256 of the
signing input under the secret). -/
def signedStringOf (claims : List (String × JsonVal)) (secret : List Nat) : String :=
  let signingInput :=
    String.mk (b64url (strBytes jwtHeaderJson)) ++ "." ++
    String.mk (b64url (strBytes (jsonMapEnc claims)))
  signingInput ++ "." ++ String.mk (b64url (hmacSha256 secret (strBytes signingInput)))

/-- The claims map literal built in `SignUp`, in source order:
`jti` (token id), `iat`, `exp`, `nbf`. -/
def claimsList (jti : String) (iat expv nbf : Int) : List (String × JsonVal) :=
  [("jti", .str jti), ("iat", .num iat), ("exp", .num expv), ("nbf", .num nbf)]

-- ## Data model and store (`Token`, `CreateToken`, `ListTokens`)

/-- The in-memory `Token` struct.  Instants are `Int` nanoseconds since the
epoch (`time.Time`); `token`, `clientIP`, `userAgent`, `lastUsedAt` are the
optional audit fields with their Go zero values when unset. -/
structure Token where
  id : String
  isRevoked : Bool
  issuedAt : Int
  expiresAt : Int
  updatedAt : Int
  token : String
  clientIP : String
  userAgent : String
  lastUsedAt : Option Int
deriving DecidableEq, Repr

/-- One row of the `tokens` table.  The three timestamp columns are
declared TEXT, so their stored values are strings (integer binds are
converted to their decimal text by SQLite's TEXT affinity). -/
structure Row where
  id : String
  isRevoked : Int
  issuedAt : String
  expiresAt : String
  updatedAt : String
deriving DecidableEq, Repr

/-- The row `CreateToken` inserts: the five schema columns, with each
instant bound as `t.Unix()` (stored as its decimal text). -/
def rowOf (t : Token) : Row :=
  { id := t.id
    isRevoked := if t.isRevoked then 1 else 0
    issuedAt := toString (unixSec t.issuedAt)
    expiresAt := toString (unixSec t.expiresAt)
    updatedAt := toString (unixSec t.updatedAt) }

/-- `CreateToken`: inserts exactly one row.  `fault` is the write-failure
oracle for environmental errors (disk I/O and the like); a duplicate
primary key is a constraint violation. -/
def createToken (fault : Bool) (store : List Row) (t : Token) : Except String (List Row) :=
  if fault then .error "CreateToken: failed to insert: disk I/O error"
  else if store.any (fun r => r.id == t.id) then
    .error "CreateToken: failed to insert: UNIQUE constraint failed: tokens.id"
  else .ok (store ++ [rowOf t])

/-- Row ordering of `ORDER BY updated_at`: SQLite BINARY collation
(byte-wise) on the TEXT column. -/
def rowLe (a b : Row) : Prop := strLe a.updatedAt b.updatedAt = true

instance : DecidableRel rowLe := fun a b => inferInstanceAs (Decidable (_ = true))

/-- The row sequence the `SELECT ... ORDER BY updated_at` query yields. -/
def sortRows (rows : List Row) : List Row := List.insertionSort rowLe rows

/-- Timestamp parse used on each scanned row: `strconv.ParseInt(s, 10, 64)`
then `time.Unix(sec, 0)`. -/
def WellFormedRow (r : Row) : Prop :=
  (parseInt64 r.issuedAt).isSome ∧ (parseInt64 r.expiresAt).isSome ∧
    (parseInt64 r.updatedAt).isSome

instance (r : Row) : Decidable (WellFormedRow r) := by unfold WellFormedRow; infer_instance

/-- The token a well-formed row scans to; audit fields keep their zero
values because the query selects only the five schema columns. -/
def toTokenD (r : Row) : Token :=
  { id := r.id
    isRevoked := r.isRevoked ≠ 0
    issuedAt := ((parseInt64 r.issuedAt).getD 0) * NANOS
    expiresAt := ((parseInt64 r.expiresAt).getD 0) * NANOS
    updatedAt := ((parseInt64 r.updatedAt).getD 0) * NANOS
    token := ""
    clientIP := ""
    userAgent := ""
    lastUsedAt := none }

/-- The scan/parse loop of `ListTokens`: each row's three timestamps are
parsed in order and the first failure aborts the whole read. -/
def parseRows : List Row → Except String (List Token)
  | [] => .ok []
  | r :: rs =>
    match parseInt64 r.issuedAt with
    | none => .error "failed to parse issued_at"
    | some i =>
      match parseInt64 r.expiresAt with
      | none => .error "failed to parse expires_at"
      | some e =>
        match parseInt64 r.updatedAt with
        | none => .error "failed to parse updated_at"
        | some u =>
          match parseRows rs with
          | .error msg => .error msg
          | .ok ts =>
            .ok ({ id := r.id, isRevoked := r.isRevoked ≠ 0,
                   issuedAt := i * NANOS, expiresAt := e * NANOS, updatedAt := u * NANOS,
                   token := "", clientIP := "", userAgent := "", lastUsedAt := none } :: ts)

/-- `ListTokens`: query ordered by `updated_at`, scan and parse every row. -/
def listTokens (rows : List Row) : Except String (List Token) :=
  parseRows (sortRows rows)

/-- The JSON keys `json.Marshal` emits for a `Token` value: the five
always-present fields in struct order, then each `omitempty` audit field
only when it is not its zero value. -/
def tokenJsonKeys (t : Token) : List String :=
  ["id", "is_revoked", "issued_at", "expires_at", "updated_at"] ++
  (if t.token = "" then [] else ["token"]) ++
  (if t.clientIP = "" then [] else ["client_ip"]) ++
  (if t.userAgent = "" then [] else ["user_agent"]) ++
  (match t.lastUsedAt with | none => [] | some _ => ["last_used_at"])

-- ## HTTP handlers (`SignUp`, `Tokens`) and middleware

/-- A handler response body: either plain error text (via `http.Error`)
or the JSON encoding of a token record / list of records. -/
inductive RespBody where
  | text (s : String)
  | jsonToken (t : Token)
  | jsonTokens (ts : List Token)
deriving DecidableEq, Repr

/-- An HTTP response as the handlers produce it. -/
structure Resp where
  status : Nat
  body : RespBody
deriving DecidableEq, Repr

/-- Observable side effects of a handler, in order of occurrence. -/
inductive Effect where
  | signed
  | storeCreate
  | storeRead
deriving DecidableEq, Repr

/-- Outcome of the `SignUp` handler: response, resulting store contents,
and the effects performed. -/
structure HOut where
  resp : Resp
  store : List Row
  effects : List Effect
deriving DecidableEq, Repr

/-- The request data `SignUp` consumes.  `expiresSec` is
`r.FormValue("expires_sec")`, which is `""` when the field is absent. -/
structure SignUpReq where
  method : String
  formOk : Bool
  expiresSec : String
  xff : String
  remoteAddr : String
  userAgent : String
deriving DecidableEq, Repr

/-- The validity duration in nanoseconds: 24h when the field is empty,
otherwise `time.Duration(expSec) * time.Second` (int64 multiplication,
hence `wrap64`) when the field parses, `none` when it does not. -/
def durOf (req : SignUpReq) : Option Int :=
  if req.expiresSec = "" then some (86400 * NANOS)
  else (parseInt64 req.expiresSec).map fun n => wrap64 (n * NANOS)

/-- The token record `SignUp` builds before persisting: fresh id, `now`
for issued/updated, `now + duration` for expiry, the signed credential,
and best-effort client metadata. -/
def mkToken (req : SignUpReq) (now : Int) (tid : String) (secret : List Nat)
    (dur : Int) : Token :=
  { id := tid
    isRevoked := false
    issuedAt := now
    expiresAt := now + dur
    updatedAt := now
    token := signedStringOf
      (claimsList tid (unixSec now) (unixSec (now + dur)) (unixSec now)) secret
    clientIP := if req.xff = "" then req.remoteAddr else req.xff
    userAgent := req.userAgent
    lastUsedAt := none }

/-- The `SignUp` handler: method check, form parse, `expires_sec`
validation, signing, store insert, JSON response. -/
def signUp (req : SignUpReq) (now : Int) (tid : String) (secret : List Nat)
    (fault : Bool) (store : List Row) : HOut :=
  if req.method ≠ "POST" then
    ⟨⟨405, .text "Method not allowed"⟩, store, []⟩
  else if req.formOk = false then
    ⟨⟨502, .text "Failed to parse the form"⟩, store, []⟩
  else
    match durOf req with
    | none => ⟨⟨400, .text "Invalid expires_sec parameter"⟩, store, []⟩
    | some dur =>
      match createToken fault store (mkToken req now tid secret dur) with
      | .error _ => ⟨⟨500, .text "Internal server error"⟩, store, [.signed]⟩
      | .ok store' =>
        ⟨⟨200, .jsonToken (mkToken req now tid secret dur)⟩, store',
         [.signed, .storeCreate]⟩

/-- The `Tokens` handler: GET only, then a store read via `ListTokens`. -/
def tokensHandler (method : String) (rows : List Row) : Resp × List Effect :=
  if method ≠ "GET" then (⟨405, .text "Method not allowed"⟩, [])
  else
    match listTokens rows with
    | .error _ => (⟨500, .text "Internal server error"⟩, [.storeRead])
    | .ok ts => (⟨200, .jsonTokens ts⟩, [.storeRead])

/-- Projection of the issued/expiry seconds out of a successful `SignUp`
response (used to state facts about the returned record). -/
def tokenTimes (o : HOut) : Option (Int × Int) :=
  match o.resp.body with
  | .jsonToken t => some (unixSec t.issuedAt, unixSec t.expiresAt)
  | _ => none

-- ## Response writer and logging middleware

/-- The observable state of an `http.ResponseWriter`: the committed status
(if any) and the accumulated body. -/
structure RW where
  status : Option Nat
  body : String
deriving DecidableEq, Repr

/-- `WriteHeader`: commits the status once; later calls are superfluous
and ignored. -/
def writeHeader (w : RW) (code : Nat) : RW :=
  match w.status with
  | none => { w with status := some code }
  | some _ => w

/-- `Write`: an implicit `WriteHeader(200)` on first write, then appends. -/
def writeBody (w : RW) (s : String) : RW :=
  let w' := match w.status with
    | none => { w with status := some 200 }
    | some _ => w
  { w' with body := w'.body ++ s }

/-- `http.Error(w, msg, code)`: header, then the message on its own line. -/
def httpError (w : RW) (msg : String) (code : Nat) : RW :=
  writeBody (writeHeader w code) (msg ++ "\n")

/-- The `Ping` handler: 200 and `pong`. -/
def pingHandler (w : RW) : RW := writeBody (writeHeader w 200) "pong"

/-- `net.SplitHostPort`: split at the last colon; an unbracketed host may
not itself contain a colon or brackets, a bracketed host must span exactly
the part before the colon. -/
def splitHostPort (s : String) : Option (String × String) :=
  let cs := s.data
  match ((cs.enum.filter fun p => p.2 == ':').getLast?.map fun p => p.1) with
  | none => none
  | some i =>
    let port := cs.drop (i + 1)
    if port.contains ':' || port.contains '[' || port.contains ']' then none
    else
      match cs with
      | '[' :: _ =>
        let hostPart := cs.take i
        match hostPart.getLast? with
        | some ']' =>
          let h := (hostPart.drop 1).dropLast
          if h.contains '[' || h.contains ']' then none
          else some (String.mk h, String.mk port)
        | _ => none
      | _ =>
        let h := cs.take i
        if h.contains ':' || h.contains '[' || h.contains ']' then none
        else some (String.mk h, String.mk port)

/-- One access-log line: client IP, method, path. -/
structure LogEntry where
  ip : String
  method : String
  path : String
deriving DecidableEq, Repr

/-- `logMiddleware`: run the wrapped handler first, then parse the client
address; on failure answer with `http.Error` 400 (and skip the log line),
otherwise log ip, method and path. -/
def logMiddleware (next : RW → RW) (remoteAddr method path : String)
    (w : RW) : RW × Option LogEntry :=
  let w' := next w
  match splitHostPort remoteAddr with
  | none => (httpError w' ("Unable to parse client IP: " ++ remoteAddr) 400, none)
  | some (ip, _) => (w', some ⟨ip, method, path⟩)

-- ## Concrete test fixtures used by witnesses and counterexamples

/-- A well-formed POST issuance request with the given `expires_sec` field. -/
def reqPost (es : String) : SignUpReq :=
  { method := "POST", formOk := true, expiresSec := es,
    xff := "", remoteAddr := "1.2.3.4:5678", userAgent := "ua" }

/-- A sample clock value: 2023-11-14 22:13:20 UTC, in nanoseconds. -/
def now0 : Int := 1700000000 * NANOS

/-- A row with a ten-digit `updated_at` text. -/
def rowA : Row := ⟨"a", 0, "1700000000", "1700000000", "1700000000"⟩

/-- A row with a nine-digit `updated_at` text, numerically earlier. -/
def rowB : Row := ⟨"b", 0, "999999999", "999999999", "999999999"⟩

/-- A row whose `updated_at` text is not a parseable integer. -/
def rowBad : Row := ⟨"x", 0, "1700000000", "1700000000", "xx"⟩

/-- A well-formed row. -/
def rowGood : Row := ⟨"g", 1, "10", "20", "30"⟩

/-- Token id fixture for the persistence counterexample. -/
def tidC5 : String := "11111111-1111-1111-1111-111111111111"

/-- The record a successful `expires_sec=3600` issuance builds at `now0`. -/
def tC5 : Token := mkToken (reqPost "3600") now0 tidC5 (strBytes "secret") (3600 * NANOS)

/-- The row that issuance persists. -/
def rowC5 : Row := ⟨tidC5, 0, "1700000000", "1700003600", "1700000000"⟩

/-- The five stored column values of a row, as a list. -/
def rowFields (r : Row) : List String :=
  [r.id, toString r.isRevoked, r.issuedAt, r.expiresAt, r.updatedAt]

end JwtGo

namespace JwtGo

-- ## Order lemmas for the byte-wise comparison

theorem charsLe_total : ∀ as bs : List Char, charsLe as bs = true ∨ charsLe bs as = true
  | [], _ => .inl rfl
  | _ :: _, [] => .inr rfl
  | a :: as, b :: bs => by
    by_cases h1 : a < b
    · left; simp [charsLe, h1]
    · by_cases h2 : b < a
      · right; simp [charsLe, h2]
      · rcases charsLe_total as bs with h | h
        · left; simp [charsLe, h1, h2, h]
        · right; simp [charsLe, h1, h2, h]

theorem charsLe_trans : ∀ {as bs cs : List Char},
    charsLe as bs = true → charsLe bs cs = true → charsLe as cs = true
  | [], _, _, _, _ => rfl
  | _ :: _, [], _, h1, _ => by simp [charsLe] at h1
  | _ :: _, _ :: _, [], _, h2 => by simp [charsLe] at h2
  | a :: as, b :: bs, c :: cs, h1, h2 => by
    by_cases hab : a < b
    · by_cases hbc : b < c
      · simp [charsLe, lt_trans hab hbc]
      · by_cases hcb : c < b
        · simp [charsLe, hbc, hcb] at h2
        · have hbc' : b = c := le_antisymm (not_lt.mp hcb) (not_lt.mp hbc)
          subst hbc'; simp [charsLe, hab]
    · by_cases hba : b < a
      · simp [charsLe, hab, hba] at h1
      · have hab' : a = b := le_antisymm (not_lt.mp hba) (not_lt.mp hab)
        subst hab'
        simp only [charsLe, if_neg hab, if_neg hba] at h1
        by_cases hac : a < c
        · simp [charsLe, hac]
        · by_cases hca : c < a
          · simp [charsLe, hac, hca] at h2
          · simp only [charsLe, if_neg hac, if_neg hca] at h2 ⊢
            exact charsLe_trans h1 h2

theorem charsLe_antisymm : ∀ {as bs : List Char},
    charsLe as bs = true → charsLe bs as = true → as = bs
  | [], [], _, _ => rfl
  | [], _ :: _, _, h2 => by simp [charsLe] at h2
  | _ :: _, [], h1, _ => by simp [charsLe] at h1
  | a :: as, b :: bs, h1, h2 => by
    by_cases hab : a < b
    · simp [charsLe, hab, lt_asymm hab] at h2
    · by_cases hba : b < a
      · simp [charsLe, hab, hba] at h1
      · have hab' : a = b := le_antisymm (not_lt.mp hba) (not_lt.mp hab)
        subst hab'
        simp only [charsLe, if_neg hab, if_neg hba] at h1 h2
        exact congrArg (a :: ·) (charsLe_antisymm h1 h2)

theorem strLe_antisymm {a b : String} (h1 : strLe a b = true) (h2 : strLe b a = true) :
    a = b := by
  cases a; cases b
  exact congrArg String.mk (charsLe_antisymm h1 h2)

instance : IsTotal Row rowLe := ⟨fun a b => charsLe_total a.updatedAt.data b.updatedAt.data⟩

instance : IsTrans Row rowLe := ⟨fun _ _ _ h1 h2 => charsLe_trans h1 h2⟩

instance : IsTotal (String × JsonVal) keyLe := ⟨fun a b => charsLe_total a.1.data b.1.data⟩

instance : IsTrans (String × JsonVal) keyLe := ⟨fun _ _ _ h1 h2 => charsLe_trans h1 h2⟩

end JwtGo

namespace JwtGo

-- ## Arithmetic lemmas

theorem wrap64_eq_self {x : Int} (h1 : -9223372036854775808 ≤ x)
    (h2 : x < 9223372036854775808) : wrap64 x = x := by
  unfold wrap64
  have h0 : (0 : Int) ≤ x + 9223372036854775808 := by linarith
  have hlt : x + 9223372036854775808 < 18446744073709551616 := by linarith
  rw [Int.emod_eq_of_lt h0 hlt]
  ring

theorem unixSec_add_mul (t n : Int) : unixSec (t + n * NANOS) = unixSec t + n := by
  unfold unixSec NANOS
  rw [Int.fdiv_eq_ediv _ (by norm_num), Int.fdiv_eq_ediv _ (by norm_num)]
  exact Int.add_mul_ediv_right t n (by norm_num)

-- ## Parse-loop lemmas

theorem parseRows_ok_of_wf : ∀ {l : List Row}, (∀ r ∈ l, WellFormedRow r) →
    parseRows l = .ok (l.map toTokenD)
  | [], _ => rfl
  | r :: rs, h => by
    have hr := h r (List.mem_cons_self r rs)
    obtain ⟨h1, h2, h3⟩ := hr
    obtain ⟨i, hi⟩ := Option.isSome_iff_exists.mp h1
    obtain ⟨e, he⟩ := Option.isSome_iff_exists.mp h2
    obtain ⟨u, hu⟩ := Option.isSome_iff_exists.mp h3
    have ih := parseRows_ok_of_wf (fun x hx => h x (List.mem_cons_of_mem r hx))
    simp only [parseRows, hi, he, hu, ih, List.map_cons]
    simp [toTokenD, hi, he, hu]

theorem parseRows_error_of_bad : ∀ {l : List Row} {r : Row}, r ∈ l → ¬WellFormedRow r →
    ∃ e, parseRows l = .error e := by
  intro l
  induction l with
  | nil => intro r hr; cases hr
  | cons a t ih =>
    intro r hr hbad
    rcases List.mem_cons.mp hr with rfl | hmem
    · by_cases h1 : (parseInt64 r.issuedAt).isSome
      · obtain ⟨i, hi⟩ := Option.isSome_iff_exists.mp h1
        by_cases h2 : (parseInt64 r.expiresAt).isSome
        · obtain ⟨e, he⟩ := Option.isSome_iff_exists.mp h2
          by_cases h3 : (parseInt64 r.updatedAt).isSome
          · exact absurd ⟨h1, h2, h3⟩ hbad
          · refine ⟨"failed to parse updated_at", ?_⟩
            simp only [Option.not_isSome_iff_eq_none] at h3
            simp [parseRows, hi, he, h3]
        · refine ⟨"failed to parse expires_at", ?_⟩
          simp only [Option.not_isSome_iff_eq_none] at h2
          simp [parseRows, hi, h2]
      · refine ⟨"failed to parse issued_at", ?_⟩
        simp only [Option.not_isSome_iff_eq_none] at h1
        simp [parseRows, h1]
    · rcases ih hmem hbad with ⟨msg, hmsg⟩
      by_cases h1 : (parseInt64 a.issuedAt).isSome
      · obtain ⟨i, hi⟩ := Option.isSome_iff_exists.mp h1
        by_cases h2 : (parseInt64 a.expiresAt).isSome
        · obtain ⟨e, he⟩ := Option.isSome_iff_exists.mp h2
          by_cases h3 : (parseInt64 a.updatedAt).isSome
          · obtain ⟨u, hu⟩ := Option.isSome_iff_exists.mp h3
            exact ⟨msg, by simp [parseRows, hi, he, hu, hmsg]⟩
          · simp only [Option.not_isSome_iff_eq_none] at h3
            exact ⟨"failed to parse updated_at", by simp [parseRows, hi, he, h3]⟩
        · simp only [Option.not_isSome_iff_eq_none] at h2
          exact ⟨"failed to parse expires_at", by simp [parseRows, hi, h2]⟩
      · simp only [Option.not_isSome_iff_eq_none] at h1
        exact ⟨"failed to parse issued_at", by simp [parseRows, h1]⟩

theorem parseRows_ok_audit : ∀ {l : List Row} {ts : List Token},
    parseRows l = .ok ts → ∀ t ∈ ts,
      t.token = "" ∧ t.clientIP = "" ∧ t.userAgent = "" ∧ t.lastUsedAt = none := by
  intro l
  induction l with
  | nil =>
    intro ts h t ht
    simp only [parseRows] at h
    cases h
    cases ht
  | cons a rest ih =>
    intro ts h t ht
    simp only [parseRows] at h
    cases hi : parseInt64 a.issuedAt with
    | none => rw [hi] at h; cases h
    | some i =>
      rw [hi] at h
      cases he : parseInt64 a.expiresAt with
      | none => rw [he] at h; cases h
      | some e =>
        rw [he] at h
        cases hu : parseInt64 a.updatedAt with
        | none => rw [hu] at h; cases h
        | some u =>
          rw [hu] at h
          cases hrec : parseRows rest with
          | error msg => rw [hrec] at h; cases h
          | ok ts' =>
            rw [hrec] at h
            cases h
            rcases List.mem_cons.mp ht with rfl | hmem
            · exact ⟨rfl, rfl, rfl, rfl⟩
            · exact ih hrec t hmem

end JwtGo

namespace JwtGo

-- ## Uniqueness of the key-sorted claim list

theorem sorted_perm_keyed_eq : ∀ {s1 s2 : List (String × JsonVal)}, s1.Perm s2 →
    List.Sorted keyLe s1 → List.Sorted keyLe s2 → (s1.map Prod.fst).Nodup → s1 = s2 := by
  intro s1
  induction s1 with
  | nil => intro s2 h _ _ _; exact h.nil_eq
  | cons a t1 ih =>
    intro s2 h hs1 hs2 hnd
    cases s2 with
    | nil => exact h.eq_nil
    | cons b t2 =>
      have hab : a = b := by
        rcases List.mem_cons.mp (h.mem_iff.mp (List.mem_cons_self a t1)) with heq | hat2
        · exact heq
        · rcases List.mem_cons.mp (h.mem_iff.mpr (List.mem_cons_self b t2)) with heq | hbt1
          · exact heq.symm
          · have h1 : keyLe a b := List.rel_of_sorted_cons hs1 b hbt1
            have h2 : keyLe b a := List.rel_of_sorted_cons hs2 a hat2
            have hkey : a.1 = b.1 := strLe_antisymm h1 h2
            have hmem : a.1 ∈ t1.map Prod.fst := hkey ▸ List.mem_map_of_mem Prod.fst hbt1
            have hnot : a.1 ∉ t1.map Prod.fst := by
              rw [List.map_cons] at hnd
              exact (List.nodup_cons.mp hnd).1
            exact absurd hmem hnot
      subst hab
      have ht : t1.Perm t2 := h.cons_inv
      have hnd' : (t1.map Prod.fst).Nodup := by
        rw [List.map_cons] at hnd
        exact (List.nodup_cons.mp hnd).2
      rw [ih ht hs1.of_cons hs2.of_cons hnd']

theorem sortClaims_eq_of_perm {l1 l2 : List (String × JsonVal)} (h : l1.Perm l2)
    (hnd : (l1.map Prod.fst).Nodup) : sortClaims l1 = sortClaims l2 :=
  sorted_perm_keyed_eq
    ((List.perm_insertionSort keyLe l1).trans (h.trans (List.perm_insertionSort keyLe l2).symm))
    (List.sorted_insertionSort keyLe l1) (List.sorted_insertionSort keyLe l2)
    ((((List.perm_insertionSort keyLe l1).map Prod.fst).nodup_iff).mpr hnd)

end JwtGo

namespace JwtGo

/-- Credential strings produced by the signing pipeline always contain a
dot separator (header `.` claims `.` signature). -/
theorem dot_mem_signedStringOf (cl : List (String × JsonVal)) (sec : List Nat) :
    '.' ∈ (signedStringOf cl sec).data := by
  unfold signedStringOf
  simp [String.data_append]

/-- C2 (amended): if `expires_sec` is supplied but is not parseable as a
64-bit integer, `SignUp` answers 400 before any signing or persistence:
the store is unchanged and no effect occurred.  (As literally stated the
claim is false: negative integers parse and are accepted.) -/
theorem c2_invalid_expires_rejected (req : SignUpReq) (now : Int) (tid : String)
    (secret : List Nat) (fault : Bool) (store : List Row)
    (hm : req.method = "POST") (hf : req.formOk = true)
    (hsup : req.expiresSec ≠ "") (hbad : parseInt64 req.expiresSec = none) :
    signUp req now tid secret fault store =
      ⟨⟨400, .text "Invalid expires_sec parameter"⟩, store, []⟩ := by
  simp [signUp, hm, hf, durOf, hsup, hbad]

theorem c2_witness :
    signUp (reqPost "abc") now0 "t" [] false [] =
      ⟨⟨400, .text "Invalid expires_sec parameter"⟩, [], []⟩ :=
  c2_invalid_expires_rejected (reqPost "abc") now0 "t" [] false []
    rfl rfl (by decide) (by decide)

/-- C2 counterexample: `expires_sec=-5` is supplied and is not a valid
non-negative integer, yet the request succeeds (status 200, not 400) and
a new record is persisted, with `expires_at` in the past. -/
theorem c2_counterexample :
    parseInt64 "-5" = some (-5) ∧ ((-5 : Int) < 0) ∧
    (signUp (reqPost "-5") now0 "t3" [] false []).resp.status = 200 ∧
    (signUp (reqPost "-5") now0 "t3" [] false []).resp.status ≠ 400 ∧
    (signUp (reqPost "-5") now0 "t3" [] false []).store =
      [⟨"t3", 0, "1700000000", "1699999995", "1700000000"⟩] := by
  refine ⟨by decide, by decide, rfl, by decide, by decide⟩

/-- C6: a store containing any row with a malformed (unparseable)
timestamp makes the whole list operation fail; no record list is
produced at all. -/
theorem c6_malformed_row_aborts_list (rows : List Row)
    (h : ∃ r ∈ rows, ¬WellFormedRow r) :
    ∃ e, listTokens rows = .error e ∧ ∀ ts, listTokens rows ≠ .ok ts := by
  obtain ⟨r, hr, hbad⟩ := h
  obtain ⟨e, he⟩ :=
    parseRows_error_of_bad (l := sortRows rows) ((List.mem_insertionSort rowLe).mpr hr) hbad
  have he' : listTokens rows = .error e := he
  exact ⟨e, he', fun ts hts => by rw [he'] at hts; cases hts⟩

theorem c6_witness :
    ∃ e, listTokens [rowGood, rowBad] = .error e ∧
      ∀ ts, listTokens [rowGood, rowBad] ≠ .ok ts :=
  c6_malformed_row_aborts_list [rowGood, rowBad] (by decide)

/-- C7: a non-POST request to the create endpoint and a non-GET request
to the list endpoint each get 405 with no effects: no signing, no store
write, no store read, store unchanged. -/
theorem c7_method_enforcement (method : String) (req : SignUpReq) (now : Int)
    (tid : String) (secret : List Nat) (fault : Bool) (store rows : List Row)
    (hm : req.method = method) :
    (method ≠ "POST" → signUp req now tid secret fault store =
      ⟨⟨405, .text "Method not allowed"⟩, store, []⟩) ∧
    (method ≠ "GET" → tokensHandler method rows =
      (⟨405, .text "Method not allowed"⟩, [])) := by
  subst hm
  constructor
  · intro h; simp [signUp, h]
  · intro h; simp [tokensHandler, h]

theorem c7_witness :
    signUp ⟨"PUT", true, "", "", "", ""⟩ now0 "t" [] false [] =
      ⟨⟨405, .text "Method not allowed"⟩, [], []⟩ ∧
    tokensHandler "PUT" [] = (⟨405, .text "Method not allowed"⟩, []) :=
  ⟨(c7_method_enforcement "PUT" ⟨"PUT", true, "", "", "", ""⟩ now0 "t" [] false [] []
      rfl).1 (by decide),
   (c7_method_enforcement "PUT" ⟨"PUT", true, "", "", "", ""⟩ now0 "t" [] false [] []
      rfl).2 (by decide)⟩

/-- C9: signing is deterministic.  The only engine-internal
non-determinism is the iteration order of the claims map, and
`json.Marshal` sorts map keys, so any two invocations with the same
token id, issued-at, expiry, not-before and secret produce byte-equal
credential strings. -/
theorem c9_signing_deterministic (jti : String) (iat expv nbf : Int)
    (secret : List Nat) (l1 l2 : List (String × JsonVal))
    (h1 : l1.Perm (claimsList jti iat expv nbf))
    (h2 : l2.Perm (claimsList jti iat expv nbf)) :
    signedStringOf l1 secret = signedStringOf l2 secret := by
  have hnd : ((claimsList jti iat expv nbf).map Prod.fst).Nodup := by
    simp [claimsList]
  have hs : sortClaims l1 = sortClaims l2 :=
    sortClaims_eq_of_perm (h1.trans h2.symm) (((h1.map Prod.fst).nodup_iff).mpr hnd)
  unfold signedStringOf jsonMapEnc
  rw [hs]

theorem c9_witness :
    signedStringOf (claimsList "j" 1 2 1) (strBytes "k") =
    signedStringOf [("nbf", .num 1), ("exp", .num 2), ("iat", .num 1), ("jti", .str "j")]
      (strBytes "k") :=
  c9_signing_deterministic "j" 1 2 1 (strBytes "k") _ _ (by decide) (by decide)

/-- C10: every record produced by the list operation serializes to JSON
with exactly the five schema keys; the credential string, client IP,
user agent and last-used fields are zero-valued and omitted. -/
theorem c10_list_fields_only_schema (rows : List Row) (ts : List Token)
    (h : listTokens rows = .ok ts) :
    ∀ t ∈ ts, tokenJsonKeys t =
      ["id", "is_revoked", "issued_at", "expires_at", "updated_at"] := by
  intro t ht
  unfold listTokens at h
  obtain ⟨h1, h2, h3, h4⟩ := parseRows_ok_audit h t ht
  simp [tokenJsonKeys, h1, h2, h3, h4]

theorem c10_witness :
    tokenJsonKeys (toTokenD rowGood) =
      ["id", "is_revoked", "issued_at", "expires_at", "updated_at"] :=
  c10_list_fields_only_schema [rowGood] [toTokenD rowGood] (by rfl)
    (toTokenD rowGood) (by simp)

end JwtGo

namespace JwtGo

/-- C1 (amended): for a POST issuance whose `expires_sec` parses to
`n ≥ 0` with `n * 10^9` within `int64` (no duration overflow), or is
omitted (`n = 86400`), any returned token record satisfies
`issued_at ≤ expires_at` (strict when `n > 0`) and
`expires_at - issued_at = n` seconds. -/
theorem c1_expiry_duration (req : SignUpReq) (now : Int) (tid : String)
    (secret : List Nat) (fault : Bool) (store : List Row) (n : Int)
    (hm : req.method = "POST") (hf : req.formOk = true)
    (hn : (req.expiresSec = "" ∧ n = 86400) ∨
          (parseInt64 req.expiresSec = some n ∧ 0 ≤ n ∧
            n * NANOS < 9223372036854775808)) :
    ∀ t st eff, signUp req now tid secret fault store = ⟨⟨200, .jsonToken t⟩, st, eff⟩ →
      t.issuedAt ≤ t.expiresAt ∧ (0 < n → t.issuedAt < t.expiresAt) ∧
      unixSec t.expiresAt - unixSec t.issuedAt = n := by
  have hNpos : (0 : Int) < NANOS := by norm_num [NANOS]
  have hn0 : 0 ≤ n := by
    rcases hn with ⟨_, rfl⟩ | ⟨_, h0, _⟩
    · norm_num
    · exact h0
  have hdur : durOf req = some (n * NANOS) := by
    rcases hn with ⟨he, rfl⟩ | ⟨hp, h0, hlt⟩
    · simp [durOf, he]
    · have hne : ¬req.expiresSec = "" := by
        intro hc; rw [hc] at hp; simp [parseInt64] at hp
      have hge : -9223372036854775808 ≤ n * NANOS :=
        le_trans (by norm_num) (mul_nonneg h0 (le_of_lt hNpos))
      simp [durOf, hne, hp, wrap64_eq_self hge hlt]
  intro t st eff heq
  simp only [signUp, hm, hf, hdur] at heq
  norm_num at heq
  rcases hcr : createToken fault store (mkToken req now tid secret (n * NANOS)) with e | st'
  · rw [hcr] at heq; simp at heq
  · rw [hcr] at heq
    simp only [HOut.mk.injEq, Resp.mk.injEq, RespBody.jsonToken.injEq, true_and] at heq
    obtain ⟨ht, -, -⟩ := heq
    subst ht
    refine ⟨?_, ?_, ?_⟩
    · show now ≤ now + n * NANOS
      have := mul_nonneg hn0 (le_of_lt hNpos)
      linarith
    · intro hpos
      show now < now + n * NANOS
      have := mul_pos hpos hNpos
      linarith
    · show unixSec (now + n * NANOS) - unixSec now = n
      rw [unixSec_add_mul]; ring

theorem c1_witness :
    (mkToken (reqPost "3600") now0 "tid" [] (3600 * NANOS)).issuedAt ≤
      (mkToken (reqPost "3600") now0 "tid" [] (3600 * NANOS)).expiresAt ∧
    ((0 : Int) < 3600 →
      (mkToken (reqPost "3600") now0 "tid" [] (3600 * NANOS)).issuedAt <
        (mkToken (reqPost "3600") now0 "tid" [] (3600 * NANOS)).expiresAt) ∧
    unixSec (mkToken (reqPost "3600") now0 "tid" [] (3600 * NANOS)).expiresAt -
      unixSec (mkToken (reqPost "3600") now0 "tid" [] (3600 * NANOS)).issuedAt = 3600 :=
  c1_expiry_duration (reqPost "3600") now0 "tid" [] false [] 3600 rfl rfl
    (Or.inr ⟨by decide, by decide, by decide⟩)
    (mkToken (reqPost "3600") now0 "tid" [] (3600 * NANOS))
    ([] ++ [rowOf (mkToken (reqPost "3600") now0 "tid" [] (3600 * NANOS))])
    [.signed, .storeCreate] (by rfl)

/-- C1 counterexample: `expires_sec=0` is a valid integer `≥ 0` but yields
`issued_at = expires_at` (not `<`), and `expires_sec=10000000000` is a
valid integer `≥ 0` whose nanosecond conversion overflows `int64`, so the
returned record's validity window is not `expires_sec` seconds (it is even
negative). -/
theorem c1_counterexample :
    (parseInt64 "0" = some 0 ∧ (0 : Int) ≤ 0 ∧
      tokenTimes (signUp (reqPost "0") now0 "t1" [] false []) =
        some (1700000000, 1700000000) ∧
      ¬((1700000000 : Int) < 1700000000)) ∧
    (parseInt64 "10000000000" = some 10000000000 ∧ (0 : Int) ≤ 10000000000 ∧
      tokenTimes (signUp (reqPost "10000000000") now0 "t2" [] false []) =
        some (1700000000, -6746744074) ∧
      ((-6746744074 : Int) - 1700000000 ≠ 10000000000)) :=
  ⟨⟨by decide, by decide, by decide, by decide⟩,
   ⟨by decide, by decide, by decide, by decide⟩⟩

/-- C3 (amended): on a store whose rows all carry parseable timestamps,
the list operation succeeds, returns exactly one record per row, and
returns them in the store's order: ascending byte-wise (BINARY-collation)
order of the stored `updated_at` text, which is not numeric order when
texts differ in length.  An empty store yields an empty list and no
error. -/
theorem c3_list_returns_all_sorted (rows : List Row)
    (hw : ∀ r ∈ rows, WellFormedRow r) :
    listTokens rows = .ok ((sortRows rows).map toTokenD) ∧
    ((sortRows rows).map toTokenD).length = rows.length ∧
    List.Sorted rowLe (sortRows rows) ∧
    listTokens ([] : List Row) = .ok [] := by
  refine ⟨?_, ?_, List.sorted_insertionSort rowLe rows, rfl⟩
  · exact parseRows_ok_of_wf fun r hr => hw r ((List.mem_insertionSort rowLe).mp hr)
  · rw [List.length_map]
    exact List.length_insertionSort rowLe rows

theorem c3_witness :
    listTokens [rowA, rowB] = .ok ((sortRows [rowA, rowB]).map toTokenD) ∧
    ((sortRows [rowA, rowB]).map toTokenD).length = [rowA, rowB].length ∧
    List.Sorted rowLe (sortRows [rowA, rowB]) ∧
    listTokens ([] : List Row) = .ok [] :=
  c3_list_returns_all_sorted [rowA, rowB] (by decide)

/-- C3 counterexample: a store holding rows with `updated_at` texts
`"1700000000"` and `"999999999"` lists the numerically later record
first, because the TEXT column orders byte-wise; the output is not
non-decreasing in `updated_at`. -/
theorem c3_counterexample :
    listTokens [rowA, rowB] = .ok [toTokenD rowA, toTokenD rowB] ∧
    unixSec (toTokenD rowA).updatedAt = 1700000000 ∧
    unixSec (toTokenD rowB).updatedAt = 999999999 ∧
    ¬((toTokenD rowA).updatedAt ≤ (toTokenD rowB).updatedAt) :=
  ⟨by rfl, by decide, by decide, by decide⟩

/-- C4: a signed credential reaches the caller only when its record was
persisted (any 200 response's record row is in the resulting store), and
when the store insert fails the caller gets an opaque 500 with no
credential and the store is unchanged. -/
theorem c4_no_credential_without_persist (req : SignUpReq) (now : Int)
    (tid : String) (secret : List Nat) (fault : Bool) (store : List Row) :
    (∀ t st eff, signUp req now tid secret fault store = ⟨⟨200, .jsonToken t⟩, st, eff⟩ →
      rowOf t ∈ st) ∧
    (∀ dur, req.method = "POST" → req.formOk = true → durOf req = some dur →
      (∃ e, createToken fault store (mkToken req now tid secret dur) = .error e) →
      signUp req now tid secret fault store =
        ⟨⟨500, .text "Internal server error"⟩, store, [.signed]⟩) := by
  constructor
  · intro t st eff heq
    unfold signUp at heq
    split at heq
    · simp at heq
    · split at heq
      · simp at heq
      · split at heq
        · simp at heq
        · rename_i dur _
          rcases hcr : createToken fault store (mkToken req now tid secret dur) with e | st'
          · rw [hcr] at heq; simp at heq
          · rw [hcr] at heq
            simp only [HOut.mk.injEq, Resp.mk.injEq, RespBody.jsonToken.injEq,
              true_and] at heq
            obtain ⟨ht, hst, -⟩ := heq
            unfold createToken at hcr
            split at hcr
            · cases hcr
            · split at hcr
              · cases hcr
              · cases hcr
                subst ht hst
                exact List.mem_append_right store (List.mem_singleton_self _)
  · rintro dur hm hf hdur ⟨e, he⟩
    simp [signUp, hm, hf, hdur, he]

theorem c4_witness :
    signUp (reqPost "") now0 "t" [] true [] =
      ⟨⟨500, .text "Internal server error"⟩, [], [.signed]⟩ :=
  (c4_no_credential_without_persist (reqPost "") now0 "t" [] true []).2
    (86400 * NANOS) rfl rfl rfl
    ⟨"CreateToken: failed to insert: disk I/O error", rfl⟩

end JwtGo

namespace JwtGo

/-- C5 (amended): on a successful issuance, the signed credential string
is in the creation response (the returned record's `token` field) and in
the in-memory record handed to the store's create operation, but the
persisted row consists of exactly the five schema columns — id, revoked
flag and the three second-precision timestamps — so the stored copy does
not contain the credential. -/
theorem c5_credential_in_response_not_in_row (req : SignUpReq) (now : Int)
    (tid : String) (secret : List Nat) (fault : Bool) (store : List Row)
    (dur : Int) (st' : List Row)
    (hm : req.method = "POST") (hf : req.formOk = true)
    (hdur : durOf req = some dur)
    (hok : createToken fault store (mkToken req now tid secret dur) = .ok st') :
    signUp req now tid secret fault store =
      ⟨⟨200, .jsonToken (mkToken req now tid secret dur)⟩, st',
       [.signed, .storeCreate]⟩ ∧
    (mkToken req now tid secret dur).token =
      signedStringOf (claimsList tid (unixSec now) (unixSec (now + dur)) (unixSec now))
        secret ∧
    st' = store ++ [rowOf (mkToken req now tid secret dur)] ∧
    rowOf (mkToken req now tid secret dur) =
      ⟨tid, 0, toString (unixSec now), toString (unixSec (now + dur)),
       toString (unixSec now)⟩ := by
  refine ⟨?_, rfl, ?_, ?_⟩
  · simp [signUp, hm, hf, hdur, hok]
  · unfold createToken at hok
    split at hok
    · cases hok
    · split at hok
      · cases hok
      · cases hok; rfl
  · simp [rowOf, mkToken]

theorem c5_witness :
    signUp (reqPost "3600") now0 tidC5 (strBytes "secret") false [] =
      ⟨⟨200, .jsonToken (mkToken (reqPost "3600") now0 tidC5 (strBytes "secret")
        (3600 * NANOS))⟩, [rowC5], [.signed, .storeCreate]⟩ ∧
    (mkToken (reqPost "3600") now0 tidC5 (strBytes "secret") (3600 * NANOS)).token =
      signedStringOf (claimsList tidC5 (unixSec now0) (unixSec (now0 + 3600 * NANOS))
        (unixSec now0)) (strBytes "secret") ∧
    [rowC5] = [] ++ [rowOf (mkToken (reqPost "3600") now0 tidC5 (strBytes "secret")
      (3600 * NANOS))] ∧
    rowOf (mkToken (reqPost "3600") now0 tidC5 (strBytes "secret") (3600 * NANOS)) =
      ⟨tidC5, 0, toString (unixSec now0), toString (unixSec (now0 + 3600 * NANOS)),
       toString (unixSec now0)⟩ :=
  c5_credential_in_response_not_in_row (reqPost "3600") now0 tidC5 (strBytes "secret")
    false [] (3600 * NANOS) [rowC5] rfl rfl (by rfl) (by rfl)

/-- C5 counterexample: a concrete successful issuance whose response
carries the credential, while the persisted row's five fields are the id
and timestamp texts; the credential contains a dot, none of the stored
fields does, so the credential is not present in the stored copy. -/
theorem c5_counterexample :
    (signUp (reqPost "3600") now0 tidC5 (strBytes "secret") false []).resp.body =
      .jsonToken tC5 ∧
    (signUp (reqPost "3600") now0 tidC5 (strBytes "secret") false []).store = [rowC5] ∧
    '.' ∈ tC5.token.data ∧
    (∀ f ∈ rowFields rowC5, '.' ∉ f.data) ∧
    tC5.token ∉ rowFields rowC5 := by
  have hno : ∀ f ∈ rowFields rowC5, '.' ∉ f.data := by decide
  have hdot : '.' ∈ tC5.token.data := dot_mem_signedStringOf _ _
  exact ⟨rfl, rfl, hdot, hno, fun hmem => hno tC5.token hmem hdot⟩

/-- C8 (amended): when the client address does not parse, the middleware
skips the access log and attempts `http.Error` 400, but the wrapped
handler has already run, so the committed status is unchanged (400 only
if the handler never wrote) and the error text is appended to the body;
when the address parses, the request is logged with client IP, method and
path after completion and the response is exactly the handler's. -/
theorem c8_log_on_parse (next : RW → RW) (addr m p : String) (w : RW) :
    ((splitHostPort addr).isNone →
      (logMiddleware next addr m p w).2 = none ∧
      (logMiddleware next addr m p w).1.status =
        (if (next w).status = none then some 400 else (next w).status) ∧
      (logMiddleware next addr m p w).1.body =
        (next w).body ++ ("Unable to parse client IP: " ++ addr ++ "\n")) ∧
    (∀ ip pt, splitHostPort addr = some (ip, pt) →
      logMiddleware next addr m p w = (next w, some ⟨ip, m, p⟩)) := by
  constructor
  · intro h
    rw [Option.isNone_iff_eq_none] at h
    cases hst : (next w).status with
    | none =>
      refine ⟨?_, ?_, ?_⟩ <;>
        simp [logMiddleware, h, httpError, writeBody, writeHeader, hst]
    | some s =>
      refine ⟨?_, ?_, ?_⟩ <;>
        simp [logMiddleware, h, httpError, writeBody, writeHeader, hst]
  · intro ip pt h
    simp [logMiddleware, h]

theorem c8_witness :
    ((logMiddleware pingHandler "nocolon" "GET" "/ping" ⟨none, ""⟩).2 = none ∧
     (logMiddleware pingHandler "nocolon" "GET" "/ping" ⟨none, ""⟩).1.status =
       (if (pingHandler ⟨none, ""⟩).status = none then some 400
        else (pingHandler ⟨none, ""⟩).status) ∧
     (logMiddleware pingHandler "nocolon" "GET" "/ping" ⟨none, ""⟩).1.body =
       (pingHandler ⟨none, ""⟩).body ++
         ("Unable to parse client IP: " ++ "nocolon" ++ "\n")) ∧
    logMiddleware pingHandler "1.2.3.4:5678" "GET" "/ping" ⟨none, ""⟩ =
      (pingHandler ⟨none, ""⟩, some ⟨"1.2.3.4", "GET", "/ping"⟩) :=
  ⟨(c8_log_on_parse pingHandler "nocolon" "GET" "/ping" ⟨none, ""⟩).1 (by decide),
   (c8_log_on_parse pingHandler "1.2.3.4:5678" "GET" "/ping" ⟨none, ""⟩).2
     "1.2.3.4" "5678" (by decide)⟩

/-- C8 counterexample: a request whose client address has no colon is not
logged, but it is not answered with a bad-request response either — the
`ping` handler already committed status 200, which the superfluous
`WriteHeader(400)` cannot change. -/
theorem c8_counterexample :
    splitHostPort "nocolon" = none ∧
    (logMiddleware pingHandler "nocolon" "GET" "/ping" ⟨none, ""⟩).1.status = some 200 ∧
    (logMiddleware pingHandler "nocolon" "GET" "/ping" ⟨none, ""⟩).1.status ≠ some 400 ∧
    (logMiddleware pingHandler "nocolon" "GET" "/ping" ⟨none, ""⟩).2 = none := by
  decide

end JwtGo
